import Mathlib

/-!
Shallow embedding of the class-booking backend (Express + MongoDB, `server.js`).

The store is modelled as explicit state: a `DB` value holding the `lessons`
and `orders` collections as lists in natural (insertion) order.  MongoDB
operations are modelled as pure functions on that state; `updateOne` updates
the first matching document, the order-placement transaction is modelled by
returning the original state on every abort path (rollback).  JavaScript
numbers are modelled as `Int` (the integer fragment suffices for every value
the routes manipulate); fallible routes return explicit result types.
-/

namespace ClassBooking

/-- A document of the `lessons` collection: `_id` is the ObjectId rendered as
its hex string, `spaces` is an `Int` because the unvalidated PUT route can
store any number there. -/
structure Lesson where
  _id : String
  subject : String
  location : String
  price : Int
  spaces : Int
deriving DecidableEq

/-- A cart entry as sent by the client to `POST /orders`: `{_id, subject}`. -/
structure CartItem where
  _id : String
  subject : String
deriving DecidableEq

/-- One entry of `orderDetails` built in the route:
`{lessonId, subject, quantity: 1}`. -/
structure OrderDetail where
  lessonId : String
  subject : String
  quantity : Nat
deriving DecidableEq

/-- A document of the `orders` collection (the `orderDate` timestamp is not
modelled). -/
structure Order where
  name : String
  phone : String
  lessonIDs : List String
  orderDetails : List OrderDetail
  totalSpaces : Nat
deriving DecidableEq

/-- The database state: both collections, in natural order. -/
structure DB where
  lessons : List Lesson
  orders : List Order
deriving DecidableEq

/-- `ObjectId.isValid` of the js driver on a string argument: a 12-character
string, or a 24-character hex string (stated over the character list of the
string). -/
def isValidObjectId (s : String) : Bool :=
  s.data.length == 12 ||
    (s.data.length == 24 &&
      s.data.all fun c =>
        c.isDigit || (decide ('a' ≤ c) && decide (c ≤ 'f')) ||
          (decide ('A' ≤ c) && decide (c ≤ 'F')))

/-- `lessonsCollection.updateOne({_id: lessonId, spaces: {$gt: 0}},
{$inc: {spaces: -1}}, {session})`: decrement the first lesson matching the
id with `spaces > 0`; returns the updated collection and `matchedCount`. -/
def condDecrement : List Lesson → String → List Lesson × Nat
  | [], _ => ([], 0)
  | l :: ls, i =>
    if l._id = i ∧ 0 < l.spaces then
      ({ l with spaces := l.spaces - 1 } :: ls, 1)
    else
      let r := condDecrement ls i
      (l :: r.1, r.2)

/-- The `for (const item of cart)` loop of `POST /orders`: one guarded
decrement per cart entry, in client order; the first entry whose
`matchedCount` is `0` aborts with that entry's `subject`. -/
def processCart : List Lesson → List CartItem → Except String (List Lesson)
  | ls, [] => .ok ls
  | ls, c :: cs =>
    let r := condDecrement ls c._id
    if r.2 = 0 then .error c.subject
    else processCart r.1 cs

/-- Outcome of `POST /orders`.  `bsonError` is the exception thrown by
`new ObjectId(item._id)` on a malformed id: it is raised before the `try`
block, so the route never converts it into a structured response. -/
inductive OrderResult where
  | invalidInput : OrderResult
  | bsonError : OrderResult
  | outOfStock : String → OrderResult
  | success : Nat → OrderResult
deriving DecidableEq

/-- JavaScript falsiness of `name` / `phone` after destructuring the body:
the field is missing (`undefined`) or the empty string. -/
def jsFalsyStr : Option String → Bool
  | none => true
  | some s => s == ""

/-- The `newOrder` document assembled by the route: `lessonIDs` and
`orderDetails` mapped over the cart in client order, `quantity: 1` per
entry, `totalSpaces = cart.length`. -/
def mkOrder (name phone : String) (cart : List CartItem) : Order :=
  { name := name
    phone := phone
    lessonIDs := cart.map (·._id)
    orderDetails := cart.map fun i =>
      { lessonId := i._id, subject := i.subject, quantity := 1 }
    totalSpaces := cart.length }

/-- `POST /orders`.  Steps of the route in order: falsiness check on
`name`/`phone`/`cart`, eager `new ObjectId` conversion (throws on a
malformed id, before any store access), then a transaction inserting the
order and running the decrement loop; any abort rolls the state back, so
the original `db` is returned on every failure path.  The surrogate for the
generated `insertedId` is the order's index in the collection. -/
def submitOrder (db : DB) (name phone : Option String)
    (cart : Option (List CartItem)) : DB × OrderResult :=
  if jsFalsyStr name || jsFalsyStr phone ||
      (match cart with | none => true | some c => c.isEmpty) then
    (db, .invalidInput)
  else if (cart.getD []).any fun i => !isValidObjectId i._id then
    (db, .bsonError)
  else
    match processCart db.lessons (cart.getD []) with
    | .error subj => (db, .outOfStock subj)
    | .ok ls =>
      ({ lessons := ls,
         orders := db.orders ++
           [mkOrder (name.getD "") (phone.getD "") (cart.getD [])] },
       .success db.orders.length)

/-- The request body of `PUT /lessons/:id`, restricted to the fields a
lesson document carries; `none` means the field is absent from the body. -/
structure LessonPatch where
  subject : Option String := none
  location : Option String := none
  price : Option Int := none
  spaces : Option Int := none
deriving DecidableEq

/-- `$set: updates` on one document: every supplied field overwrites the
stored one, with no validation of the values. -/
def applyPatch (p : LessonPatch) (l : Lesson) : Lesson :=
  { l with
    subject := p.subject.getD l.subject
    location := p.location.getD l.location
    price := p.price.getD l.price
    spaces := p.spaces.getD l.spaces }

/-- Outcome of `PUT /lessons/:id`: the 400 for a malformed id, the 404, or
the success payload carrying `modifiedCount`. -/
inductive UpdateResult where
  | invalidFormat : UpdateResult
  | notFound : UpdateResult
  | ok : Nat → UpdateResult
deriving DecidableEq

/-- `lessonsCollection.updateOne({_id}, {$set: updates})`: patch the first
matching document; returns the collection, `matchedCount` and
`modifiedCount` (a `$set` that changes nothing is matched but not
modified). -/
def setLesson : List Lesson → String → LessonPatch → List Lesson × Nat × Nat
  | [], _, _ => ([], 0, 0)
  | l :: ls, i, p =>
    if l._id = i then
      (applyPatch p l :: ls, 1, if applyPatch p l = l then 0 else 1)
    else
      let r := setLesson ls i p
      (l :: r.1, r.2.1, r.2.2)

/-- `PUT /lessons/:id`: reject a malformed id, then an unconditioned
`$set`; 404 when `matchedCount` is zero, otherwise report
`modifiedCount`. -/
def updateLessonFields (db : DB) (lessonId : String) (p : LessonPatch) :
    DB × UpdateResult :=
  if !isValidObjectId lessonId then (db, .invalidFormat)
  else
    let r := setLesson db.lessons lessonId p
    if r.2.1 = 0 then (db, .notFound)
    else ({ db with lessons := r.1 }, .ok r.2.2)

/-- Does the pattern occur at the head of the text? -/
def leadMatch : List Char → List Char → Bool
  | [], _ => true
  | _ :: _, [] => false
  | p :: ps, t :: ts => p == t && leadMatch ps ts

/-- Does the pattern occur anywhere in the text? -/
def hasSub : List Char → List Char → Bool
  | _, [] => true
  | [], _ :: _ => false
  | c :: ts, p :: ps => leadMatch (p :: ps) (c :: ts) || hasSub ts (p :: ps)

/-- `{$regex: query, $options: 'i'}` for a query containing no regex
metacharacters: case-insensitive substring match (both sides lowered
characterwise). -/
def containsCI (s pat : String) : Bool :=
  hasSub (s.data.map Char.toLower) (pat.data.map Char.toLower)

/-- The leading integer of a string after trimming whitespace: an optional
sign followed by at least one digit; `none` when no digit follows (the
`NaN` case of `parseFloat` / `parseInt`).  Fractional and exponent parts
are outside the integer fragment this embedding uses. -/
def parseLeadingInt (s : String) : Option Int :=
  let cs := s.data.dropWhile Char.isWhitespace
  let sign : Int := match cs with
    | '-' :: _ => -1
    | _ => 1
  let rest := match cs with
    | '-' :: r => r
    | '+' :: r => r
    | _ => cs
  let ds := rest.takeWhile Char.isDigit
  if ds.isEmpty then none
  else some (sign * (ds.foldl (fun a c => a * 10 + (c.toNat - '0'.toNat)) 0 : Nat))

/-- `parseFloat(query) || 0`: a query that is not a number gives `NaN`,
which is falsy, hence `0` (a parsed `0` is also falsy and gives `0`). -/
def parseFloatOr0 (q : String) : Int := (parseLeadingInt q).getD 0

/-- `parseInt(query) || 0`: same fallback as `parseFloatOr0`; on the
integer fragment the two parses agree. -/
def parseIntOr0 (q : String) : Int := (parseLeadingInt q).getD 0

/-- The `$or` search filter of `GET /search`: case-insensitive regex on
`subject` and `location`, numeric equality on `price` and `spaces` against
the parsed query. -/
def searchFilter (query : String) (l : Lesson) : Bool :=
  containsCI l.subject query || containsCI l.location query ||
    l.price == parseFloatOr0 query || l.spaces == parseIntOr0 query

/-- The sort key comparison for `.sort({[sortAttribute]: sortOrder})` on
the fields a lesson carries; an unknown attribute compares everything
equal (a sort on a field no document has). -/
def fieldLeB (attr : String) (a b : Lesson) : Bool :=
  if attr = "subject" then decide (a.subject ≤ b.subject)
  else if attr = "location" then decide (a.location ≤ b.location)
  else if attr = "price" then decide (a.price ≤ b.price)
  else if attr = "spaces" then decide (a.spaces ≤ b.spaces)
  else true

/-- The comparison actually passed to the sort: `sortOrder === 'desc'`
flips the direction, anything else sorts ascending. -/
def sortLe (attr : String) (desc : Bool) (a b : Lesson) : Bool :=
  if desc then fieldLeB attr b a else fieldLeB attr a b

/-- `GET /search`: an empty / missing query redirects to `/lessons` (all
lessons, natural order); otherwise filter with `searchFilter` and stable-sort
by `sortAttribute || 'subject'`, descending only for `sortOrder === 'desc'`. -/
def search (db : DB) (q : String) (sortAttribute sortOrder : Option String) :
    List Lesson :=
  if q = "" then db.lessons
  else
    let attr := match sortAttribute with
      | none => "subject"
      | some s => if s = "" then "subject" else s
    let desc := sortOrder == some "desc"
    (db.lessons.filter (searchFilter q)).insertionSort
      fun a b => sortLe attr desc a b = true

/-- `GET /lessons`: the full collection in natural order. -/
def getLessons (db : DB) : List Lesson := db.lessons

/-! Concrete fixtures used to witness the theorems below. -/

/-- A well-formed 24-hex-character ObjectId string. -/
def idA : String := "aaaaaaaaaaaaaaaaaaaaaaaa"

/-- A second well-formed ObjectId string. -/
def idB : String := "bbbbbbbbbbbbbbbbbbbbbbbb"

/-- A lesson with seats available. -/
def lessonMath : Lesson := ⟨idA, "Math", "Hendon", 100, 5⟩

/-- A sold-out lesson (`spaces = 0`). -/
def lessonSci : Lesson := ⟨idB, "Science", "Colindale", 80, 0⟩

/-- The same lesson as `lessonSci` but with seats available. -/
def lessonSci3 : Lesson := ⟨idB, "Science", "Colindale", 80, 3⟩

/-- A sold-out lesson whose subject and location do not mention "math". -/
def artLesson : Lesson := ⟨idB, "Art", "London", 10, 0⟩

/-- A two-item cart referencing `lessonMath` then the `idB` lesson. -/
def cartAB : List CartItem := [⟨idA, "Math"⟩, ⟨idB, "Science"⟩]

/-- Store where the cart's second lesson is sold out. -/
def dbAB : DB := ⟨[lessonMath, lessonSci], []⟩

/-- Store where both lessons of the cart have seats. -/
def db2ok : DB := ⟨[lessonMath, lessonSci3], []⟩

/-- Store holding only `artLesson`. -/
def dbArt : DB := ⟨[artLesson], []⟩

/-- Store holding only `lessonMath`. -/
def db1 : DB := ⟨[lessonMath], []⟩

/-- The body `{ spaces: -5 }` of a PUT request. -/
def patchNeg : LessonPatch := ⟨none, none, none, some (-5)⟩

/-- The body `{ price: 50 }` of a PUT request. -/
def patchPrice : LessonPatch := ⟨none, none, some 50, none⟩

/-- The state `db2ok` reaches after the two-item order commits. -/
def dbAfter : DB :=
  ⟨[⟨idA, "Math", "Hendon", 100, 4⟩, ⟨idB, "Science", "Colindale", 80, 2⟩],
   [mkOrder "Ann" "0123" cartAB]⟩

/-! Helper lemmas about the store operations. -/

theorem condDecrement_fst_nonneg (i : String) :
    ∀ ls : List Lesson, (∀ l ∈ ls, 0 ≤ l.spaces) →
      ∀ l ∈ (condDecrement ls i).1, 0 ≤ l.spaces := by
  intro ls
  induction ls with
  | nil => intro _ l hl; simp [condDecrement] at hl
  | cons a as ih =>
    intro h l hl
    by_cases hc : a._id = i ∧ 0 < a.spaces
    · simp only [condDecrement, if_pos hc] at hl
      rcases List.mem_cons.mp hl with rfl | hmem
      · have := hc.2; simp; omega
      · exact h l (List.mem_cons_of_mem _ hmem)
    · simp only [condDecrement, if_neg hc] at hl
      rcases List.mem_cons.mp hl with rfl | hmem
      · exact h l (List.mem_cons_self _ _)
      · exact ih (fun x hx => h x (List.mem_cons_of_mem _ hx)) l hmem

theorem processCart_ok_nonneg :
    ∀ (cart : List CartItem) (ls ls' : List Lesson),
      (∀ l ∈ ls, 0 ≤ l.spaces) → processCart ls cart = .ok ls' →
      ∀ l ∈ ls', 0 ≤ l.spaces := by
  intro cart
  induction cart with
  | nil =>
    intro ls ls' h hp
    simp only [processCart, Except.ok.injEq] at hp
    exact hp ▸ h
  | cons c cs ih =>
    intro ls ls' h hp
    simp only [processCart] at hp
    split at hp
    · cases hp
    · exact ih _ _ (condDecrement_fst_nonneg c._id ls h) hp

theorem condDecrement_one_iff (i : String) :
    ∀ ls : List Lesson,
      (condDecrement ls i).2 = 1 ↔ ∃ l ∈ ls, l._id = i ∧ 0 < l.spaces := by
  intro ls
  induction ls with
  | nil => simp [condDecrement]
  | cons a as ih =>
    by_cases hc : a._id = i ∧ 0 < a.spaces
    · simp [condDecrement, if_pos hc, hc]
    · simp only [condDecrement, if_neg hc]
      rw [ih]
      simp only [List.mem_cons]
      constructor
      · rintro ⟨l, hl, hP⟩; exact ⟨l, Or.inr hl, hP⟩
      · rintro ⟨l, rfl | hl, hP⟩
        · exact absurd hP hc
        · exact ⟨l, hl, hP⟩

theorem condDecrement_zero_fst (i : String) :
    ∀ ls : List Lesson, (condDecrement ls i).2 = 0 → (condDecrement ls i).1 = ls := by
  intro ls
  induction ls with
  | nil => intro _; rfl
  | cons a as ih =>
    intro h
    by_cases hc : a._id = i ∧ 0 < a.spaces
    · simp [condDecrement, if_pos hc] at h
    · simp only [condDecrement, if_neg hc] at h ⊢
      rw [ih h]

theorem condDecrement_found (i : String) :
    ∀ (pre : List Lesson) (l : Lesson) (post : List Lesson),
      (∀ l' ∈ pre, ¬(l'._id = i ∧ 0 < l'.spaces)) → l._id = i → 0 < l.spaces →
      condDecrement (pre ++ l :: post) i =
        (pre ++ { l with spaces := l.spaces - 1 } :: post, 1) := by
  intro pre
  induction pre with
  | nil =>
    intro l post _ hl hs
    have hc : l._id = i ∧ 0 < l.spaces := ⟨hl, hs⟩
    simp only [List.nil_append, condDecrement, if_pos hc]
  | cons a pres ih =>
    intro l post hpre hl hs
    have ha := hpre a (List.mem_cons_self _ _)
    have ih' := ih l post (fun x hx => hpre x (List.mem_cons_of_mem _ hx)) hl hs
    simp only [List.cons_append, condDecrement, if_neg ha, List.append_eq, ih']

theorem setLesson_not_found (i : String) (p : LessonPatch) :
    ∀ ls : List Lesson, (∀ l ∈ ls, l._id ≠ i) → setLesson ls i p = (ls, 0, 0) := by
  intro ls
  induction ls with
  | nil => intro _; rfl
  | cons a as ih =>
    intro h
    have ha : ¬a._id = i := h a (List.mem_cons_self _ _)
    simp only [setLesson, if_neg ha, ih (fun x hx => h x (List.mem_cons_of_mem _ hx))]

theorem setLesson_found (i : String) (p : LessonPatch) :
    ∀ (pre : List Lesson) (l : Lesson) (post : List Lesson),
      (∀ l' ∈ pre, l'._id ≠ i) → l._id = i →
      setLesson (pre ++ l :: post) i p =
        (pre ++ applyPatch p l :: post, 1, if applyPatch p l = l then 0 else 1) := by
  intro pre
  induction pre with
  | nil => intro l post _ hl; simp only [List.nil_append, setLesson, if_pos hl]
  | cons a pres ih =>
    intro l post hpre hl
    have ha : ¬a._id = i := hpre a (List.mem_cons_self _ _)
    have ih' := ih l post (fun x hx => hpre x (List.mem_cons_of_mem _ hx)) hl
    simp only [List.cons_append, setLesson, if_neg ha, List.append_eq, ih']

/-! The claims. -/

/-- C1: if the conditional decrement of any line item of a submitted cart
fails (lesson missing or `spaces = 0`), the whole transaction is aborted: no
`Order` is committed and every lesson — including ones already decremented
for earlier items of the same cart — keeps its pre-call `spaces` count. -/
theorem submitOrder_outOfStock_rollback (db db' : DB) (name phone : Option String)
    (cart : Option (List CartItem)) (s : String)
    (h : submitOrder db name phone cart = (db', .outOfStock s)) :
    db' = db ∧ db'.orders = db.orders ∧ db'.lessons = db.lessons := by
  unfold submitOrder at h
  split at h
  · simp at h
  · split at h
    · simp at h
    · split at h
      · rw [Prod.mk.injEq] at h
        exact ⟨h.1.symm, h.1 ▸ rfl, h.1 ▸ rfl⟩
      · simp at h

/-- Witness for C1: the two-item cart `cartAB` against `dbAB`, whose second
lesson is sold out, aborts and leaves `dbAB` unchanged. -/
theorem submitOrder_outOfStock_rollback_witness :
    dbAB = dbAB ∧ dbAB.orders = dbAB.orders ∧ dbAB.lessons = dbAB.lessons :=
  submitOrder_outOfStock_rollback dbAB dbAB (some "Ann") (some "0123")
    (some cartAB) "Science" (by decide)

/-- C2: if every lesson has non-negative `spaces` before an order placement,
every lesson still has non-negative `spaces` afterwards, whether the
placement succeeds or fails: each decrement is guarded by `spaces > 0`. -/
theorem submitOrder_spaces_nonneg (db : DB) (name phone : Option String)
    (cart : Option (List CartItem)) (h : ∀ l ∈ db.lessons, 0 ≤ l.spaces) :
    ∀ l ∈ (submitOrder db name phone cart).1.lessons, 0 ≤ l.spaces := by
  unfold submitOrder
  split
  · exact h
  · split
    · exact h
    · split
      · exact h
      · next ls heq => exact processCart_ok_nonneg _ _ _ h heq

/-- Witness for C2: after the successful one-item order against `db2ok`,
the untouched lesson `lessonSci3` still has non-negative `spaces`. -/
theorem submitOrder_spaces_nonneg_witness : 0 ≤ lessonSci3.spaces :=
  submitOrder_spaces_nonneg db2ok (some "Ann") (some "0123")
    (some [⟨idA, "Math"⟩]) (by decide) lessonSci3 (by decide)

/-- C3: a per-item decrement succeeds (`matchedCount = 1`) iff the
referenced lesson exists with `spaces > 0`; a failed decrement changes
nothing; a successful one reduces exactly the first matching lesson's
`spaces` by the item's quantity, which is always `1` — each cart entry is
its own unit, never merged. -/
theorem condDecrement_spec (ls : List Lesson) (i : String) :
    ((condDecrement ls i).2 = 1 ↔ ∃ l ∈ ls, l._id = i ∧ 0 < l.spaces)
    ∧ ((condDecrement ls i).2 = 0 → (condDecrement ls i).1 = ls)
    ∧ (∀ pre l post, ls = pre ++ l :: post →
        (∀ l' ∈ pre, ¬(l'._id = i ∧ 0 < l'.spaces)) → l._id = i → 0 < l.spaces →
        (condDecrement ls i).1 = pre ++ { l with spaces := l.spaces - 1 } :: post
          ∧ (condDecrement ls i).2 = 1)
    ∧ (∀ (name phone : String) (cart : List CartItem),
        ∀ d ∈ (mkOrder name phone cart).orderDetails, d.quantity = 1) := by
  refine ⟨condDecrement_one_iff i ls, condDecrement_zero_fst i ls, ?_, ?_⟩
  · intro pre l post hsplit hpre hl hs
    rw [hsplit, condDecrement_found i pre l post hpre hl hs]
    exact ⟨rfl, rfl⟩
  · intro name phone cart d hd
    simp only [mkOrder, List.mem_map] at hd
    obtain ⟨x, _, rfl⟩ := hd
    rfl

/-- Witness for C3: decrementing `lessonMath` in the singleton store
succeeds and takes its `spaces` from `5` to `4`. -/
theorem condDecrement_spec_witness :
    (condDecrement [lessonMath] idA).1
        = [] ++ { lessonMath with spaces := lessonMath.spaces - 1 } :: []
      ∧ (condDecrement [lessonMath] idA).2 = 1 :=
  (condDecrement_spec [lessonMath] idA).2.2.1 [] lessonMath []
    rfl (by simp) (by decide) (by decide)

/-- C6: an order placement whose name is empty or missing, whose phone is
empty or missing, or whose cart is absent or empty, fails with the
`InvalidInput` response before the transaction: no `Order` is created and
no lesson is mutated. -/
theorem submitOrder_invalidInput (db : DB) (name phone : Option String)
    (cart : Option (List CartItem))
    (h : jsFalsyStr name = true ∨ jsFalsyStr phone = true ∨
      cart = none ∨ cart = some []) :
    submitOrder db name phone cart = (db, .invalidInput) := by
  unfold submitOrder
  rw [if_pos]
  rcases h with h | h | h | h <;> simp [h]

/-- Witness for C6: an order with an empty cart is rejected as
`InvalidInput` and leaves `dbAB` untouched. -/
theorem submitOrder_invalidInput_witness :
    submitOrder dbAB (some "Ann") (some "0123") (some []) = (dbAB, .invalidInput) :=
  submitOrder_invalidInput dbAB (some "Ann") (some "0123") (some [])
    (Or.inr (Or.inr (Or.inr rfl)))

/-- C5 counterexample: a cart item with the malformed lesson id `"zz"` makes
the route raise the raw BSON error, not the structured `InvalidInput`
response the claim states; the store is nevertheless untouched. -/
theorem submitOrder_badId_counterexample :
    (submitOrder dbAB (some "Ann") (some "0123") (some [⟨"zz", "Math"⟩])).2
        = OrderResult.bsonError
      ∧ OrderResult.bsonError ≠ OrderResult.invalidInput
      ∧ (submitOrder dbAB (some "Ann") (some "0123") (some [⟨"zz", "Math"⟩])).1
        = dbAB := by
  decide

/-- C5 amended: a validated order whose cart holds a malformed lesson id
fails with the raw error thrown by `new ObjectId` — before any store
access, so no `Order` is inserted and no lesson is mutated — rather than
with a structured `InvalidInput` response. -/
theorem submitOrder_badId_throws (db : DB) (name phone : Option String)
    (items : List CartItem)
    (hn : jsFalsyStr name = false) (hp : jsFalsyStr phone = false)
    (hne : items ≠ [])
    (hbad : ∃ i ∈ items, isValidObjectId i._id = false) :
    submitOrder db name phone (some items) = (db, .bsonError) := by
  unfold submitOrder
  rw [if_neg, if_pos]
  · rcases hbad with ⟨i, hi, hv⟩
    simp only [Option.getD, List.any_eq_true]
    exact ⟨i, hi, by simp [hv]⟩
  · simp [hn, hp, hne]

/-- Witness for C5 amended: the malformed id `"zz"` in an otherwise valid
request yields the raw error and leaves `dbAB` unchanged. -/
theorem submitOrder_badId_throws_witness :
    submitOrder dbAB (some "Ann") (some "0123") (some [⟨"zz", "Math"⟩])
      = (dbAB, .bsonError) :=
  submitOrder_badId_throws dbAB (some "Ann") (some "0123") [⟨"zz", "Math"⟩]
    (by decide) (by decide) (by decide) (by decide)

/-- C7: a successful order placement returns the identity of the newly
created `Order`; the persisted order's `orderDetails` maps the cart in
client-supplied order with quantity `1` per entry, and `totalSpaces` is the
cart length. -/
theorem submitOrder_success_spec (db db' : DB) (name phone : Option String)
    (items : List CartItem) (oid : Nat)
    (h : submitOrder db name phone (some items) = (db', .success oid)) :
    oid = db.orders.length
      ∧ db'.orders = db.orders ++ [mkOrder (name.getD "") (phone.getD "") items]
      ∧ (mkOrder (name.getD "") (phone.getD "") items).orderDetails
          = items.map (fun i =>
              ({ lessonId := i._id, subject := i.subject, quantity := 1 } : OrderDetail))
      ∧ (mkOrder (name.getD "") (phone.getD "") items).totalSpaces = items.length := by
  unfold submitOrder at h
  split at h
  · simp at h
  · split at h
    · simp at h
    · split at h
      · simp at h
      · rw [Prod.mk.injEq] at h
        obtain ⟨h1, h2⟩ := h
        cases h2
        exact ⟨rfl, h1 ▸ rfl, rfl, rfl⟩

/-- Witness for C7: the two-item cart `[{id: idA}, {id: idB}]` against
`db2ok` commits, returns order id `0`, and persists `orderDetails`
referencing `idA` then `idB`, each with quantity `1`, with
`totalSpaces = 2`. -/
theorem submitOrder_success_spec_witness :
    0 = db2ok.orders.length
      ∧ dbAfter.orders = db2ok.orders ++ [mkOrder "Ann" "0123" cartAB]
      ∧ (mkOrder "Ann" "0123" cartAB).orderDetails
          = cartAB.map (fun i =>
              ({ lessonId := i._id, subject := i.subject, quantity := 1 } : OrderDetail))
      ∧ (mkOrder "Ann" "0123" cartAB).totalSpaces = cartAB.length :=
  submitOrder_success_spec db2ok dbAfter (some "Ann") (some "0123") cartAB 0
    (by decide)

/-- C8: a lesson patch whose well-formed id matches no lesson fails with
`NotFound` and mutates nothing; one whose id matches applies the supplied
partial fields to the first matching lesson and reports the modified
count. -/
theorem updateLessonFields_spec (db : DB) (id : String) (p : LessonPatch)
    (hv : isValidObjectId id = true) :
    ((∀ l ∈ db.lessons, l._id ≠ id) → updateLessonFields db id p = (db, .notFound))
    ∧ (∀ pre l post, db.lessons = pre ++ l :: post →
        (∀ l' ∈ pre, l'._id ≠ id) → l._id = id →
        updateLessonFields db id p =
          ({ db with lessons := pre ++ applyPatch p l :: post },
           .ok (if applyPatch p l = l then 0 else 1))) := by
  constructor
  · intro hno
    unfold updateLessonFields
    rw [if_neg (by simp [hv]), setLesson_not_found id p db.lessons hno]
    simp
  · intro pre l post hsplit hpre hl
    unfold updateLessonFields
    rw [if_neg (by simp [hv]), hsplit, setLesson_found id p pre l post hpre hl]
    simp

/-- Witness for C8: patching the price of `lessonMath` in the singleton
store succeeds with the patched collection and reports the modified
count. -/
theorem updateLessonFields_spec_witness :
    updateLessonFields db1 idA patchPrice =
      ({ db1 with lessons := [] ++ applyPatch patchPrice lessonMath :: [] },
       .ok (if applyPatch patchPrice lessonMath = lessonMath then 0 else 1)) :=
  (updateLessonFields_spec db1 idA patchPrice (by decide)).2 [] lessonMath []
    rfl (by simp) rfl

/-- C9: the lesson patch applies the client-supplied fields with no
validation of the values: any matched lesson is overwritten and the route
reports success, and the body `{ spaces: -5 }` stores a negative `spaces`,
breaking the invariant order placement maintains. -/
theorem updateLessonFields_unvalidated (db : DB) (id : String) (p : LessonPatch)
    (pre : List Lesson) (l : Lesson) (post : List Lesson)
    (hv : isValidObjectId id = true) (hsplit : db.lessons = pre ++ l :: post)
    (hpre : ∀ l' ∈ pre, l'._id ≠ id) (hl : l._id = id) :
    (∃ n, (updateLessonFields db id p).2 = .ok n)
      ∧ (updateLessonFields db id p).1.lessons = pre ++ applyPatch p l :: post
      ∧ (applyPatch ⟨none, none, none, some (-5)⟩ l).spaces < 0 := by
  unfold updateLessonFields
  rw [if_neg (by simp [hv]), hsplit, setLesson_found id p pre l post hpre hl]
  refine ⟨⟨if applyPatch p l = l then 0 else 1, by simp⟩, by simp, ?_⟩
  simp [applyPatch]

/-- Witness for C9: sending `{ spaces: -5 }` for `lessonMath` succeeds and
stores the lesson with `spaces = -5`. -/
theorem updateLessonFields_unvalidated_witness :
    (∃ n, (updateLessonFields db1 idA patchNeg).2 = .ok n)
      ∧ (updateLessonFields db1 idA patchNeg).1.lessons
          = [] ++ applyPatch patchNeg lessonMath :: []
      ∧ (applyPatch ⟨none, none, none, some (-5)⟩ lessonMath).spaces < 0 :=
  updateLessonFields_unvalidated db1 idA patchNeg [] lessonMath []
    (by decide) rfl (by simp) rfl

/-- C4 counterexample: searching for "math" over a store holding only
`artLesson` — subject "Art", location "London", `spaces = 0` — returns that
lesson, although neither its subject nor its location contains "math": the
numeric branches match `spaces == parseInt("math") || 0`, i.e. `0`. -/
theorem search_math_counterexample :
    search dbArt "math" none none = [artLesson]
      ∧ containsCI artLesson.subject "math" = false
      ∧ containsCI artLesson.location "math" = false := by
  decide

/-- C4 amended: search with query "math" returns exactly the lessons whose
subject or location contains "math" case-insensitively OR whose price or
spaces equals `0` (the fallback of the numeric branches for a query that
does not parse as a number), sorted by subject ascending when no sort field
or direction is supplied. -/
theorem search_math_spec (db : DB) :
    (∀ l : Lesson, l ∈ search db "math" none none ↔
        l ∈ db.lessons ∧
          (containsCI l.subject "math" || containsCI l.location "math" ||
            l.price == 0 || l.spaces == 0) = true)
      ∧ (search db "math" none none).Sorted fun a b => a.subject ≤ b.subject := by
  have hsearch : search db "math" none none =
      (db.lessons.filter (searchFilter "math")).insertionSort
        (fun a b => sortLe "subject" false a b = true) := rfl
  constructor
  · intro l
    rw [hsearch, (List.perm_insertionSort _ _).mem_iff, List.mem_filter]
    exact Iff.rfl
  · rw [hsearch]
    haveI : IsTotal Lesson (fun a b => sortLe "subject" false a b = true) :=
      ⟨fun a b => by
        rcases le_total a.subject b.subject with h | h
        · exact Or.inl (decide_eq_true h)
        · exact Or.inr (decide_eq_true h)⟩
    haveI : IsTrans Lesson (fun a b => sortLe "subject" false a b = true) :=
      ⟨fun _ _ _ hab hbc =>
        decide_eq_true (le_trans (of_decide_eq_true hab) (of_decide_eq_true hbc))⟩
    exact (List.sorted_insertionSort (fun a b => sortLe "subject" false a b = true)
      (db.lessons.filter (searchFilter "math"))).imp fun hab => of_decide_eq_true hab

/-- C10: for a non-empty query that does not parse as a number, the numeric
branches of the search filter fall back to the constant `0`, so every
lesson whose price is `0` or whose spaces is `0` is in the result set, with
no requirement on its subject or location. -/
theorem search_zero_fallback (db : DB) (q : String) (l : Lesson)
    (hq : q ≠ "") (hn : parseLeadingInt q = none)
    (hl : l ∈ db.lessons) (hz : l.price = 0 ∨ l.spaces = 0) :
    parseFloatOr0 q = 0 ∧ parseIntOr0 q = 0 ∧ l ∈ search db q none none := by
  have h0 : parseFloatOr0 q = 0 := by simp [parseFloatOr0, hn]
  have h1 : parseIntOr0 q = 0 := by simp [parseIntOr0, hn]
  refine ⟨h0, h1, ?_⟩
  unfold search
  rw [if_neg hq, (List.perm_insertionSort _ _).mem_iff, List.mem_filter]
  refine ⟨hl, ?_⟩
  unfold searchFilter
  rw [h0, h1]
  rcases hz with h | h <;> simp [h]

/-- Witness for C10: the query "math" does not parse as a number, and
`artLesson` (subject "Art", location "London", `spaces = 0`) is in the
search result. -/
theorem search_zero_fallback_witness :
    parseFloatOr0 "math" = 0 ∧ parseIntOr0 "math" = 0
      ∧ artLesson ∈ search dbArt "math" none none :=
  search_zero_fallback dbArt "math" artLesson (by decide) (by decide)
    (by decide) (Or.inr rfl)

end ClassBooking
